import Mathlib

/-!
# gosss — verification of the spec against the source

Shallow embedding of the parts of the gosss object-storage service that the
checked claims are about: the MD5/SHA-256/HMAC primitives used for ETags and
presigned URLs, the bucket/object-key validators, the error encoder, the
auth middleware, the signed-download handler, the storage engine's
`HasObject`/`DeleteBucket`/`PutObject`/`DeleteObject` logic, and `filepath`
path joining. Machine integers are `Nat` with explicit reduction modulo
`2 ^ 32` where the Go code relies on 32-bit wraparound; bytes are `Nat`
values below 256.
-/

set_option maxRecDepth 20000

namespace Gosss

/-! ## 32-bit word helpers -/

/-- `2 ^ 32`, the modulus for 32-bit arithmetic. -/
def m32 : Nat := 4294967296

/-- 32-bit wrapping addition. -/
def add32 (a b : Nat) : Nat := (a + b) % m32

/-- 32-bit left rotation (for `0 < n < 32` and `x < 2 ^ 32`). -/
def rotl32 (x n : Nat) : Nat := ((x <<< n) % m32) ||| (x >>> (32 - n))

/-- 32-bit right rotation (for `0 < n < 32` and `x < 2 ^ 32`). -/
def rotr32 (x n : Nat) : Nat := (x >>> n) ||| ((x <<< (32 - n)) % m32)

/-- Bitwise complement within 32 bits. -/
def not32 (x : Nat) : Nat := x ^^^ 4294967295

/-! ## Bytes, hex, UTF-8 -/

/-- Little-endian bytes of a 32-bit word. -/
def leBytes4 (w : Nat) : List Nat := [w % 256, w / 256 % 256, w / 65536 % 256, w / 16777216 % 256]

/-- Little-endian bytes of a 64-bit quantity. -/
def leBytes8 (n : Nat) : List Nat := leBytes4 (n % m32) ++ leBytes4 (n / m32 % m32)

/-- Big-endian bytes of a 32-bit word. -/
def beBytes4 (w : Nat) : List Nat := [w / 16777216 % 256, w / 65536 % 256, w / 256 % 256, w % 256]

/-- Big-endian bytes of a 64-bit quantity. -/
def beBytes8 (n : Nat) : List Nat := beBytes4 (n / m32 % m32) ++ beBytes4 (n % m32)

/-- The 32-bit word at index `i` of a byte block, read little-endian. -/
def leWord (bs : List Nat) (i : Nat) : Nat :=
  bs.getD (4 * i) 0 + 256 * bs.getD (4 * i + 1) 0 + 65536 * bs.getD (4 * i + 2) 0 +
    16777216 * bs.getD (4 * i + 3) 0

/-- The 32-bit word at index `i` of a byte block, read big-endian. -/
def beWord (bs : List Nat) (i : Nat) : Nat :=
  16777216 * bs.getD (4 * i) 0 + 65536 * bs.getD (4 * i + 1) 0 + 256 * bs.getD (4 * i + 2) 0 +
    bs.getD (4 * i + 3) 0

/-- Lowercase hexadecimal digit for a value below 16. -/
def hexDigit (n : Nat) : Char := Char.ofNat (if n < 10 then 48 + n else 87 + n)

/-- Lowercase hex encoding of a byte list, as produced by Go's
`hex.EncodeToString`. -/
def bytesToHex (bs : List Nat) : String :=
  String.mk ((bs.map (fun b => [hexDigit (b / 16 % 16), hexDigit (b % 16)])).flatten)

/-- UTF-8 encoding of one character, matching Go's `[]byte(string)` conversion. -/
def charUtf8 (c : Char) : List Nat :=
  let n := c.toNat
  if n < 128 then [n]
  else if n < 2048 then [192 + n / 64, 128 + n % 64]
  else if n < 65536 then [224 + n / 4096, 128 + n / 64 % 64, 128 + n % 64]
  else [240 + n / 262144, 128 + n / 4096 % 64, 128 + n / 64 % 64, 128 + n % 64]

/-- UTF-8 bytes of a string, matching Go's `[]byte(s)`. -/
def strBytes (s : String) : List Nat := (s.toList.map charUtf8).flatten

/-! ## MD5 (crypto/md5), used for ETags -/

/-- The 64 MD5 sine-derived constants `T[i] = floor(2^32 * abs(sin(i + 1)))`. -/
def md5K : List Nat :=
  [0xd76aa478, 0xe8c7b756, 0x242070db, 0xc1bdceee,
   0xf57c0faf, 0x4787c62a, 0xa8304613, 0xfd469501,
   0x698098d8, 0x8b44f7af, 0xffff5bb1, 0x895cd7be,
   0x6b901122, 0xfd987193, 0xa679438e, 0x49b40821,
   0xf61e2562, 0xc040b340, 0x265e5a51, 0xe9b6c7aa,
   0xd62f105d, 0x02441453, 0xd8a1e681, 0xe7d3fbc8,
   0x21e1cde6, 0xc33707d6, 0xf4d50d87, 0x455a14ed,
   0xa9e3e905, 0xfcefa3f8, 0x676f02d9, 0x8d2a4c8a,
   0xfffa3942, 0x8771f681, 0x6d9d6122, 0xfde5380c,
   0xa4beea44, 0x4bdecfa9, 0xf6bb4b60, 0xbebfbc70,
   0x289b7ec6, 0xeaa127fa, 0xd4ef3085, 0x04881d05,
   0xd9d4d039, 0xe6db99e5, 0x1fa27cf8, 0xc4ac5665,
   0xf4292244, 0x432aff97, 0xab9423a7, 0xfc93a039,
   0x655b59c3, 0x8f0ccc92, 0xffeff47d, 0x85845dd1,
   0x6fa87e4f, 0xfe2ce6e0, 0xa3014314, 0x4e0811a1,
   0xf7537e82, 0xbd3af235, 0x2ad7d2bb, 0xeb86d391]

/-- The 64 MD5 per-step left-rotation amounts. -/
def md5S : List Nat :=
  [7, 12, 17, 22, 7, 12, 17, 22, 7, 12, 17, 22, 7, 12, 17, 22,
   5, 9, 14, 20, 5, 9, 14, 20, 5, 9, 14, 20, 5, 9, 14, 20,
   4, 11, 16, 23, 4, 11, 16, 23, 4, 11, 16, 23, 4, 11, 16, 23,
   6, 10, 15, 21, 6, 10, 15, 21, 6, 10, 15, 21, 6, 10, 15, 21]

/-- The four 32-bit MD5 chaining registers. -/
structure MD5State where
  a : Nat
  b : Nat
  c : Nat
  d : Nat
deriving DecidableEq

/-- One of the 64 MD5 steps over a 64-byte block. -/
def md5Round (block : List Nat) (st : MD5State) (i : Nat) : MD5State :=
  let f :=
    if i < 16 then (st.b &&& st.c) ||| (not32 st.b &&& st.d)
    else if i < 32 then (st.d &&& st.b) ||| (not32 st.d &&& st.c)
    else if i < 48 then st.b ^^^ st.c ^^^ st.d
    else st.c ^^^ (st.b ||| not32 st.d)
  let g :=
    if i < 16 then i
    else if i < 32 then (5 * i + 1) % 16
    else if i < 48 then (3 * i + 5) % 16
    else 7 * i % 16
  let sum := add32 (add32 (add32 st.a f) (md5K.getD i 0)) (leWord block g)
  { a := st.d, b := add32 st.b (rotl32 sum (md5S.getD i 0)), c := st.b, d := st.c }

/-- MD5 compression of one 64-byte block into the chaining state. -/
def md5ProcessBlock (st : MD5State) (block : List Nat) : MD5State :=
  let e := (List.range 64).foldl (md5Round block) st
  { a := add32 st.a e.a, b := add32 st.b e.b, c := add32 st.c e.c, d := add32 st.d e.d }

/-- Fold the MD5 compression over `n` consecutive 64-byte blocks. -/
def md5Loop : Nat → MD5State → List Nat → MD5State
  | 0, st, _ => st
  | n + 1, st, bs => md5Loop n (md5ProcessBlock st (bs.take 64)) (bs.drop 64)

/-- MD5 padding: a `0x80` byte, zeros to 56 mod 64, then the bit length as a
little-endian 64-bit integer. -/
def md5Pad (msg : List Nat) : List Nat :=
  msg ++ (128 :: List.replicate ((119 - msg.length % 64) % 64) 0) ++ leBytes8 (8 * msg.length)

/-- The 16-byte MD5 digest of a byte sequence. -/
def md5 (msg : List Nat) : List Nat :=
  let padded := md5Pad msg
  let st := md5Loop (padded.length / 64)
    { a := 0x67452301, b := 0xefcdab89, c := 0x98badcfe, d := 0x10325476 } padded
  leBytes4 st.a ++ leBytes4 st.b ++ leBytes4 st.c ++ leBytes4 st.d

/-! ## SHA-256 (crypto/sha256), used for presigned-URL HMACs -/

/-- The 64 SHA-256 round constants (first 32 bits of the fractional parts of
the cube roots of the first 64 primes). -/
def sha256K : List Nat :=
  [1116352408, 1899447441, 3049323471, 3921009573, 961987163,
   1508970993, 2453635748, 2870763221, 3624381080, 310598401,
   607225278, 1426881987, 1925078388, 2162078206, 2614888103,
   3248222580, 3835390401, 4022224774, 264347078, 604807628,
   770255983, 1249150122, 1555081692, 1996064986, 2554220882,
   2821834349, 2952996808, 3210313671, 3336571891, 3584528711,
   113926993, 338241895, 666307205, 773529912, 1294757372,
   1396182291, 1695183700, 1986661051, 2177026350, 2456956037,
   2730485921, 2820302411, 3259730800, 3345764771, 3516065817,
   3600352804, 4094571909, 275423344, 430227734, 506948616,
   659060556, 883997877, 958139571, 1322822218, 1537002063,
   1747873779, 1955562222, 2024104815, 2227730452, 2361852424,
   2428436474, 2756734187, 3204031479, 3329325298]

/-- The eight 32-bit SHA-256 chaining registers. -/
structure Sha256State where
  h0 : Nat
  h1 : Nat
  h2 : Nat
  h3 : Nat
  h4 : Nat
  h5 : Nat
  h6 : Nat
  h7 : Nat
deriving DecidableEq

/-- SHA-256 message-schedule function `σ0`. -/
def smallSigma0 (x : Nat) : Nat := rotr32 x 7 ^^^ rotr32 x 18 ^^^ (x >>> 3)

/-- SHA-256 message-schedule function `σ1`. -/
def smallSigma1 (x : Nat) : Nat := rotr32 x 17 ^^^ rotr32 x 19 ^^^ (x >>> 10)

/-- SHA-256 round function `Σ0`. -/
def bigSigma0 (x : Nat) : Nat := rotr32 x 2 ^^^ rotr32 x 13 ^^^ rotr32 x 22

/-- SHA-256 round function `Σ1`. -/
def bigSigma1 (x : Nat) : Nat := rotr32 x 6 ^^^ rotr32 x 11 ^^^ rotr32 x 25

/-- The 64-word SHA-256 message schedule of a 64-byte block. -/
def sha256Schedule (block : List Nat) : List Nat :=
  (List.range 48).foldl
    (fun ws _ =>
      let n := ws.length
      ws ++ [add32 (add32 (smallSigma1 (ws.getD (n - 2) 0)) (ws.getD (n - 7) 0))
        (add32 (smallSigma0 (ws.getD (n - 15) 0)) (ws.getD (n - 16) 0))])
    ((List.range 16).map (beWord block))

/-- SHA-256 compression of one 64-byte block into the chaining state. -/
def sha256ProcessBlock (st : Sha256State) (block : List Nat) : Sha256State :=
  let ws := sha256Schedule block
  let e := (List.range 64).foldl
    (fun (r : Sha256State) i =>
      let ch := (r.h4 &&& r.h5) ^^^ (not32 r.h4 &&& r.h6)
      let maj := (r.h0 &&& r.h1) ^^^ (r.h0 &&& r.h2) ^^^ (r.h1 &&& r.h2)
      let t1 := add32 (add32 (add32 r.h7 (bigSigma1 r.h4)) (add32 ch (sha256K.getD i 0)))
        (ws.getD i 0)
      let t2 := add32 (bigSigma0 r.h0) maj
      { h0 := add32 t1 t2, h1 := r.h0, h2 := r.h1, h3 := r.h2,
        h4 := add32 r.h3 t1, h5 := r.h4, h6 := r.h5, h7 := r.h6 }) st
  { h0 := add32 st.h0 e.h0, h1 := add32 st.h1 e.h1, h2 := add32 st.h2 e.h2,
    h3 := add32 st.h3 e.h3, h4 := add32 st.h4 e.h4, h5 := add32 st.h5 e.h5,
    h6 := add32 st.h6 e.h6, h7 := add32 st.h7 e.h7 }

/-- Fold the SHA-256 compression over `n` consecutive 64-byte blocks. -/
def sha256Loop : Nat → Sha256State → List Nat → Sha256State
  | 0, st, _ => st
  | n + 1, st, bs => sha256Loop n (sha256ProcessBlock st (bs.take 64)) (bs.drop 64)

/-- SHA-256 padding: a `0x80` byte, zeros to 56 mod 64, then the bit length as
a big-endian 64-bit integer. -/
def sha256Pad (msg : List Nat) : List Nat :=
  msg ++ (128 :: List.replicate ((119 - msg.length % 64) % 64) 0) ++ beBytes8 (8 * msg.length)

/-- The big-endian 32-byte digest of a SHA-256 chaining state. -/
def sha256Digest (st : Sha256State) : List Nat :=
  beBytes4 st.h0 ++ beBytes4 st.h1 ++ beBytes4 st.h2 ++ beBytes4 st.h3 ++
    beBytes4 st.h4 ++ beBytes4 st.h5 ++ beBytes4 st.h6 ++ beBytes4 st.h7

/-- The 32-byte SHA-256 digest of a byte sequence. -/
def sha256 (msg : List Nat) : List Nat :=
  let padded := sha256Pad msg
  sha256Digest (sha256Loop (padded.length / 64)
    { h0 := 1779033703, h1 := 3144134277, h2 := 1013904242, h3 := 2773480762,
      h4 := 1359893119, h5 := 2600822924, h6 := 528734635, h7 := 1541459225 } padded)

/-- FIPS 180 test vector: the SHA-256 of the empty message. -/
theorem sha256_vector_empty :
    bytesToHex (sha256 []) =
      "e3b0c44298fc1c149afbf4c8996fb92427ae41e4649b934ca495991b7852b855" := by rfl

/-- FIPS 180 test vector: the SHA-256 of "abc". -/
theorem sha256_vector_abc :
    bytesToHex (sha256 (strBytes "abc")) =
      "ba7816bf8f01cfea414140de5dae2223b00361a396177a9cb410ff61f20015ad" := by rfl

/-! ## HMAC-SHA256 (crypto/hmac) -/

/-- HMAC-SHA256 over byte sequences: the key is hashed when longer than the
64-byte block, zero-padded to the block size, and combined with the `0x36`
and `0x5c` pads. -/
def hmacSha256 (key msg : List Nat) : List Nat :=
  let k0 := if key.length > 64 then sha256 key else key
  let kp := k0 ++ List.replicate (64 - k0.length) 0
  sha256 ((kp.map (fun b => b ^^^ 92)) ++ sha256 ((kp.map (fun b => b ^^^ 54)) ++ msg))

/-- RFC 4231 test case 2: HMAC-SHA256 with key "Jefe". -/
theorem hmac_vector_jefe :
    bytesToHex (hmacSha256 (strBytes "Jefe") (strBytes "what do ya want for nothing?")) =
      "5bdcc146bf60754e6a042426089575c75a003f089d2739839dec58b964ec3843" := by rfl

/-! ## String primitives on character lists

Character-list counterparts of the Go `strings` operations the handlers use
(`HasPrefix`, `HasSuffix`, `Contains`, `Split`, `Join`), written as
structural recursions so that the kernel can evaluate them. -/

/-- Whether the second list starts with the first (Go `strings.HasPrefix`). -/
def charsStartWith : List Char → List Char → Bool
  | [], _ => true
  | _ :: _, [] => false
  | p :: ps, c :: cs => p = c && charsStartWith ps cs

/-- Whether the second list ends with the first (Go `strings.HasSuffix`). -/
def charsEndWith (pat s : List Char) : Bool := charsStartWith pat.reverse s.reverse

/-- Whether the pattern occurs contiguously in the list (Go `strings.Contains`). -/
def charsContain (pat : List Char) : List Char → Bool
  | [] => charsStartWith pat []
  | c :: cs => charsStartWith pat (c :: cs) || charsContain pat cs

/-- Split a character list at every equals sign, matching Go's
`strings.Split(s, "=")`: every occurrence separates, none are collapsed. -/
def splitEq : List Char → List (List Char)
  | [] => [[]]
  | c :: cs =>
    let r := splitEq cs
    if c.toNat = 61 then [] :: r
    else (c :: r.headD []) :: r.tail

/-- Join strings with an equals sign between them (Go `strings.Join(_, "=")`). -/
def joinWithEq : List String → String
  | [] => ""
  | [s] => s
  | s :: rest => s ++ "=" ++ joinWithEq rest

/-! ## Validator (internal/api/validator.go) -/

/-- The character class of the regex in `isValidObjectKey`'s source,
`[a-zA-Z0-9!-_.*'()/]`. Inside a character class an unescaped `-` between
two literals forms a range, so `!-_` is the byte range 0x21 through 0x5f;
the members listed after it (dot, asterisk, apostrophe, parentheses, slash)
all fall inside that range and are redundant. -/
def goSafeClassChar (c : Char) : Bool :=
  let n := c.toNat
  (97 ≤ n && n ≤ 122) ||    -- a-z
  (65 ≤ n && n ≤ 90) ||     -- A-Z
  (48 ≤ n && n ≤ 57) ||     -- 0-9 (also inside the range below)
  (33 ≤ n && n ≤ 95) ||     -- the range written !-_ in the source
  n = 46 || n = 42 || n = 39 || n = 40 || n = 41 || n = 47

/-- The object-key validator `isValidObjectKey`, returning the (ok, reason)
pair of the source. Lengths are byte lengths, as Go's `len` on a string. -/
def isValidObjectKey (key : String) : Bool × String :=
  if (strBytes key).length = 0 then (false, "key cannot be empty")
  else if (strBytes key).length > 1024 then (false, "key length cannot exceed 1024 bytes")
  else if (strBytes key).contains 0 || (strBytes key).contains 10 || (strBytes key).contains 13
    then (false, "key contains invalid control characters")
  else if charsStartWith [ '.' ] key.toList then (false, "key cannot start with .")
  else if charsStartWith [ '.', '.' ] key.toList then (false, "key cannot start with ..")
  else if charsStartWith [ '-' ] key.toList then (false, "key cannot start with -")
  else if charsStartWith [ '_' ] key.toList then (false, "key cannot start with _")
  else if charsContain [ '/', '/' ] key.toList then (false, "key cannot contain //")
  else if charsContain [ '\\' ] key.toList then (false, "key cannot contain \\")
  else if charsEndWith [ '/' ] key.toList then (false, "key cannot end with forward slash")
  else if !(key.toList ≠ [] && key.toList.all goSafeClassChar)
    then (false, "key contains invalid characters")
  else (true, "")

/-- Modelled from the claim's words: the safe-character class
`A–Z a–z 0–9 ! - _ . * ' ( ) /` with the hyphen read as a literal member
(the class the spec writes as `[A-Za-z0-9!\-_.*'()/]`). -/
def claimSafeChar (c : Char) : Bool :=
  let n := c.toNat
  (97 ≤ n && n ≤ 122) || (65 ≤ n && n ≤ 90) || (48 ≤ n && n ≤ 57) ||
  n = 33 || n = 45 || n = 95 || n = 46 || n = 42 || n = 39 || n = 40 || n = 41 || n = 47

/-! ## Error encoder (internal/error/error.go) -/

/-- Escaping applied by Go's `encoding/xml` to character data: quote,
apostrophe, ampersand, angle brackets, tab, newline, carriage return. -/
def xmlEscapeChar (c : Char) : String :=
  if c.toNat = 34 then "&#34;"
  else if c.toNat = 39 then "&#39;"
  else if c.toNat = 38 then "&amp;"
  else if c.toNat = 60 then "&lt;"
  else if c.toNat = 62 then "&gt;"
  else if c.toNat = 9 then "&#x9;"
  else if c.toNat = 10 then "&#xA;"
  else if c.toNat = 13 then "&#xD;"
  else String.mk [c]

/-- XML-escape a string's character data. -/
def xmlEscape (s : String) : String := String.join (s.toList.map xmlEscapeChar)

/-- An HTTP error response as the encoder produces it: status code,
Content-Type header, body. -/
structure HttpErrorResponse where
  status : Nat
  contentType : String
  body : String
deriving DecidableEq

/-- `xml.MarshalIndent` of the `GosssError` struct with empty line prefix and
two-space indent: `<Error>` wrapping the indented `Code`, `Message` and
`Resource` elements. -/
def marshalIndentGosssError (code message resource : String) : String :=
  "<Error>\n  <Code>" ++ xmlEscape code ++ "</Code>\n  <Message>" ++ xmlEscape message ++
    "</Message>\n  <Resource>" ++ xmlEscape resource ++ "</Resource>\n</Error>"

/-- `SendGossError`: sets `Content-Type: application/xml`, writes the status,
then writes an XML declaration line followed by the marshalled error, whose
`Code` field is the decimal rendering of the status. -/
def sendGossError (code : Nat) (message resource : String) : HttpErrorResponse :=
  { status := code,
    contentType := "application/xml",
    body := "<?xml version=\"1.0\" encoding=\"UTF-8\"?>\n" ++
      marshalIndentGosssError (Nat.repr code) message resource }

/-! ## Auth middleware (internal/middleware/auth.go) -/

/-- The configured credential pair. -/
structure Config where
  accessKeyID : String
  secretKey : String
deriving DecidableEq

/-- Outcome of the auth filter: pass the request on, or reply with a status
and message. -/
inductive AuthResult
  | allow
  | deny (status : Nat) (message : String)
deriving DecidableEq

/-- The auth middleware decision from `CreateAuthMiddleware`: OPTIONS passes;
otherwise the `Authorization` header (empty string when absent) is split at
every equals sign, and the first two parts must equal the configured access
key id and secret. -/
def createAuthMiddleware (cfg : Config) (method authHeader : String) : AuthResult :=
  if method = "OPTIONS" then .allow
  else if authHeader = "" then .deny 401 "Authorization header required"
  else
    let parts := (splitEq authHeader.toList).map String.mk
    if parts.length < 2 then .deny 401 "Invalid authorization header format"
    else if parts.getD 0 "" ≠ cfg.accessKeyID then .deny 401 "Invalid access key ID"
    else if parts.getD 1 "" ≠ cfg.secretKey then .deny 401 "Invalid secret access key"
    else .allow

/-- Modelled from the claim's words: split the header at its FIRST equals
sign; the id half is everything before it and the secret half is everything
after it (later equals signs included). -/
def claimAuthAccepts (cfg : Config) (method authHeader : String) : Bool :=
  if method = "OPTIONS" then true
  else
    match (splitEq authHeader.toList).map String.mk with
    | [] => false
    | [_] => false
    | idHalf :: rest => idHalf = cfg.accessKeyID && joinWithEq rest = cfg.secretKey

/-! ## Signed downloads (internal/api/handlers/get_signed_object.go) -/

/-- Accumulate base-10 digits left to right; fail on any non-digit. -/
def decDigitsVal (acc : Nat) : List Char → Option Nat
  | [] => some acc
  | c :: cs =>
    if 48 ≤ c.toNat ∧ c.toNat ≤ 57 then decDigitsVal (10 * acc + (c.toNat - 48)) cs else none

/-- Go's `strconv.ParseInt(s, 10, 64)` as the handler uses it: an optional
sign, then at least one decimal digit, value within the signed 64-bit
range; anything else (including out-of-range values) is an error. -/
def parseGoInt64 (s : String) : Option Int :=
  let cs := s.toList
  let signSplit : Bool × List Char :=
    match cs with
    | c :: rest =>
      if c.toNat = 43 then (false, rest)
      else if c.toNat = 45 then (true, rest)
      else (false, cs)
    | [] => (false, [])
  if signSplit.snd = [] then none
  else
    match decDigitsVal 0 signSplit.snd with
    | none => none
    | some n =>
      if signSplit.fst then
        if n ≤ 9223372036854775808 then some (-(n : Int)) else none
      else if n ≤ 9223372036854775807 then some ((n : Int)) else none

/-- The string to sign: `strings.Join([expiration, bucket, key], ":")`. -/
def stringToSign (expiration bucket key : String) : String :=
  expiration ++ ":" ++ bucket ++ ":" ++ key

/-- `generateSignature`: lowercase-hex HMAC-SHA256 of the string to sign,
keyed with the configured secret. -/
def generateSignature (secretKey expiration bucket key : String) : String :=
  bytesToHex (hmacSha256 (strBytes secretKey) (strBytes (stringToSign expiration bucket key)))

/-- Outcome of the signed-download handler up to the storage fetch. -/
inductive SignedOutcome
  | respondError (status : Nat) (message : String)
  | fetchObject (bucket key : String)
deriving DecidableEq

/-- `GetSignedObject` up to the storage fetch: missing parameters → 400,
malformed expiration → 400, `now() > expiration` → 403 expired, then the
received signature is compared against the recomputed one with
`hmac.Equal`, which on the two UTF-8 byte strings is exactly string
equality → 403 on mismatch, else the object is fetched. -/
def getSignedObject (cfg : Config) (now : Int) (expiration sig bucket key : String) :
    SignedOutcome :=
  if expiration = "" ∨ sig = "" then .respondError 400 "Missing required query parameters"
  else
    match parseGoInt64 expiration with
    | none => .respondError 400 "Invalid expiration format"
    | some exp =>
      if now > exp then .respondError 403 "URL has expired"
      else if sig ≠ generateSignature cfg.secretKey expiration bucket key then
        .respondError 403 "Invalid signature"
      else .fetchObject bucket key

/-! ## Storage engine: buckets (internal/storage, unnamed bucket file) -/

/-- A filesystem subtree inside a bucket directory. -/
inductive FsTree
  | file (name : String)
  | dir (name : String) (children : List FsTree)

/-- An entry as `filepath.Walk` hands it to the callback: the visited path
and whether it is a directory. Only the path's suffix and the flag matter
to the callbacks in the source, so paths here carry just the entry name. -/
structure WalkEntry where
  path : String
  isDir : Bool
deriving DecidableEq

mutual

/-- Preorder flattening of one subtree, in `filepath.Walk` visit order. -/
def walkTree : FsTree → List WalkEntry
  | .file n => [{ path := n, isDir := false }]
  | .dir n cs => { path := n, isDir := true } :: walkForest cs

/-- Preorder flattening of a list of subtrees. -/
def walkForest : List FsTree → List WalkEntry
  | [] => []
  | t :: ts => walkTree t ++ walkForest ts

end

/-- The walk inside `HasObject`: `filepath.Walk` stops at the first error the
callback returns; the callback skips directories and `.metadata` names and
returns the error "found object" on anything else. -/
def hasObjectWalk : List WalkEntry → Option String
  | [] => none
  | e :: rest =>
    if e.isDir || charsEndWith (String.toList ".metadata") e.path.toList then hasObjectWalk rest
    else some "found object"

/-- `HasObject` as written in the source: the outer condition requires the
walk error to be non-nil AND different from "found object" before the inner
branches run, so the inner `return true, nil` is unreachable and the
function falls through to `return false, nil`. I/O failures of the walk
itself are outside this model. -/
def hasObject (entries : List WalkEntry) : Bool × Option String :=
  match hasObjectWalk entries with
  | some msg =>
    if msg ≠ "found object" then
      if msg = "found object" then (true, none)
      else (false, some "failed to check if object exists")
    else (false, none)
  | none => (false, none)

/-- The claim's condition on a bucket: its walk contains at least one entry
that is not a directory and whose name does not end in ".metadata". -/
def claimHasObject (entries : List WalkEntry) : Bool :=
  entries.any (fun e => !e.isDir && !charsEndWith (String.toList ".metadata") e.path.toList)

/-- Engine `DeleteBucket` on an existing bucket directory with the given
entries: `os.ReadDir` lists them, any remaining entry aborts with "bucket
not empty", otherwise the directory is removed. -/
def engineDeleteBucket (children : List FsTree) : Except String Unit :=
  if children.length > 0 then Except.error "bucket not empty" else Except.ok ()

/-- A handler's answer: an error response or a success with no body. -/
inductive HandlerResponse
  | respondError (status : Nat) (message : String)
  | noContent
deriving DecidableEq

/-- The `DeleteBucket` handler on one bucket (`none` when the bucket does not
exist, otherwise its directory entries). The source writes a 409 error when
`HasObject` reports true but is missing a `return` there, so execution
falls through to the engine call; the first status written wins. The engine
call is deterministic in this model, so the three retry attempts return
identical results and the backoff sleeps do not affect the outcome.
`BucketExists`/walk I/O failures are outside the model. -/
def deleteBucketFlow (bucket : Option (List FsTree)) :
    HandlerResponse × Option (List FsTree) :=
  match bucket with
  | none => (.respondError 404 "Bucket not found", none)
  | some children =>
    match (hasObject (walkForest children)).snd with
    | some _ => (.respondError 500 "Failed to list objects", some children)
    | none =>
      let hasObj := (hasObject (walkForest children)).fst
      let attempt := engineDeleteBucket children
      let post : Option (List FsTree) :=
        match attempt with
        | .ok _ => none
        | .error _ => some children
      match attempt, hasObj with
      | .error _, true => (.respondError 409 "Bucket not empty", post)
      | .error _, false => (.respondError 500 "Failed to delete bucket", post)
      | .ok _, true => (.respondError 409 "Bucket not empty", post)
      | .ok _, false => (.noContent, post)

/-! ## Storage engine: PutObject (internal/storage/object.go) -/

/-- The metadata record of a stored object. `LastModified` is kept as an
opaque timestamp string. -/
structure ObjectMetadata where
  key : String
  size : Nat
  lastModified : String
  etag : String
  contentType : String
deriving DecidableEq

/-- The metadata `PutObject` constructs after streaming the body: the byte
count `io.Copy` reported, the current time, the quoted lowercase-hex MD5 of
the streamed bytes, and the supplied content type. -/
def putObjectMetadata (key : String) (body : List Nat) (now contentType : String) :
    ObjectMetadata :=
  { key := key, size := body.length, lastModified := now,
    etag := "\"" ++ bytesToHex (md5 body) ++ "\"", contentType := contentType }

/-- The on-disk state at an object's two final paths (data file and sidecar). -/
structure ObjectPairState where
  dataFile : Option (List Nat)
  metaFile : Option ObjectMetadata
deriving DecidableEq

/-- The points at which `PutObject` can fail. -/
inductive PutFailure
  | mkdirFail
  | dataTempFail
  | copyFail
  | metaTempFail
  | encodeFail
  | dataRenameFail
  | metaRenameFail
deriving DecidableEq

/-- The engine error message for each failure point. -/
def putErrMsg : PutFailure → String
  | .mkdirFail => "failed to create directories"
  | .dataTempFail => "failed to create temporary file"
  | .copyFail => "failed to write data"
  | .metaTempFail => "failed to create temporary metadata file"
  | .encodeFail => "failed to write metadata"
  | .dataRenameFail => "failed to move object file"
  | .metaRenameFail => "failed to move metadata file"

/-- `PutObject` as a transition on the two final paths, with failure
injection. Every failure up to and including the data rename leaves the
final paths untouched (the deferred removers only delete the temp files).
When the metadata rename fails after the data rename succeeded, the code
runs `os.Remove(objectPath)` — deleting the freshly renamed data file —
and leaves any pre-existing sidecar in place (this model takes that remove
to succeed). On success both final paths hold the new pair. -/
def putObject (pre : ObjectPairState) (key : String) (body : List Nat) (now contentType : String)
    (failAt : Option PutFailure) : Except String ObjectMetadata × ObjectPairState :=
  match failAt with
  | some .metaRenameFail =>
    (Except.error (putErrMsg .metaRenameFail), { dataFile := none, metaFile := pre.metaFile })
  | some f => (Except.error (putErrMsg f), pre)
  | none =>
    let meta := putObjectMetadata key body now contentType
    (Except.ok meta, { dataFile := some body, metaFile := some meta })

/-- The claim's post-failure condition: either neither final path exists, or
the pre-existing pair is unchanged — never a partial pair. -/
def claimPutFailureIntact (pre post : ObjectPairState) : Prop :=
  (post.dataFile = none ∧ post.metaFile = none) ∨ post = pre

/-! ## Path joining (path/filepath) and the object handlers -/

/-- Split a character list at every slash. -/
def splitSlash : List Char → List (List Char)
  | [] => [[]]
  | c :: cs =>
    let r := splitSlash cs
    if c.toNat = 47 then [] :: r
    else (c :: r.headD []) :: r.tail

/-- Join strings with a slash between them. -/
def joinWithSlash : List String → String
  | [] => ""
  | [s] => s
  | s :: rest => s ++ "/" ++ joinWithSlash rest

/-- One step of the lexical loop of Go's `filepath.Clean` on unix: the output
stack (most recent element first) consumes the next path element. Empty and
"." elements are dropped; ".." pops a poppable element, is dropped at the
root, and is kept when nothing can be popped on a relative path. -/
def cleanStep (rooted : Bool) (stack : List String) (elem : String) : List String :=
  if elem = "" ∨ elem = "." then stack
  else if elem = ".." then
    match stack with
    | [] => if rooted then [] else [elem]
    | top :: rest => if top = ".." then elem :: top :: rest else rest
  else elem :: stack

/-- Go `filepath.Clean` for unix paths. -/
def filepathClean (p : String) : String :=
  let rooted := charsStartWith [ '/' ] p.toList
  let elems := ((splitSlash p.toList).map String.mk).foldl (cleanStep rooted) []
  let joined := joinWithSlash elems.reverse
  if rooted then (if joined = "" then "/" else "/" ++ joined)
  else (if joined = "" then "." else joined)

/-- Go `filepath.Join`: drop empty elements, join the rest with slashes,
clean the result; all-empty input yields the empty string. -/
def filepathJoin (parts : List String) : String :=
  let ne := parts.filter (fun s => s ≠ "")
  if ne = [] then "" else filepathClean (joinWithSlash ne)

/-- The path the engine computes for an object:
`filepath.Join(ls.basePath, bucket, key)`. -/
def objectPath (basePath bucket key : String) : String :=
  filepathJoin [basePath, bucket, key]

/-- A flat view of the filesystem: paths paired with file contents. -/
abbrev Disk := List (String × List Nat)

/-- Whether a path exists on the disk. -/
def diskHas (disk : Disk) (p : String) : Bool := disk.any (fun e => e.fst = p)

/-- Remove a path from the disk. -/
def diskRemove (disk : Disk) (p : String) : Disk := disk.filter (fun e => e.fst ≠ p)

/-- Engine `DeleteObject`: `os.Remove` of the data path (an error when it is
absent), then best-effort removal of the sidecar path. -/
def engineDeleteObject (basePath : String) (disk : Disk) (bucket key : String) :
    Except String Disk :=
  let op := objectPath basePath bucket key
  if diskHas disk op then Except.ok (diskRemove (diskRemove disk op) (op ++ ".metadata"))
  else Except.error "failed to delete object"

/-- Engine `GetObject` in the disk view: the sidecar is read first (a missing
sidecar fails the call), then the data file is opened; decoding of the
sidecar bytes is not modelled. -/
def engineGetObject (basePath : String) (disk : Disk) (bucket key : String) :
    Except String (List Nat) :=
  let op := objectPath basePath bucket key
  if !diskHas disk (op ++ ".metadata") then Except.error "failed to read metadata"
  else
    match disk.find? (fun e => e.fst = op) with
    | none => Except.error "failed to open file"
    | some e => Except.ok e.snd

/-- The `DeleteObject` handler: the bucket and key URL parameters go straight
to the engine — neither validator is invoked, exactly as in the source. -/
def deleteObjectHandler (basePath : String) (disk : Disk) (bucket key : String) :
    HandlerResponse × Disk :=
  match engineDeleteObject basePath disk bucket key with
  | .error msg => (.respondError 500 msg, disk)
  | .ok disk2 => (.noContent, disk2)

/-! ## Ground-truth test vectors for the hash embeddings -/

/-- RFC 1321 test vector: the MD5 of the empty message. -/
theorem md5_vector_empty : bytesToHex (md5 []) = "d41d8cd98f00b204e9800998ecf8427e" := by rfl

/-- RFC 1321 test vector: the MD5 of "abc". -/
theorem md5_vector_abc :
    bytesToHex (md5 (strBytes "abc")) = "900150983cd24fb0d6963f7d28e17f72" := by rfl

/-- The digest used by the spec's scenario S2: the MD5 of "hi". -/
theorem md5_vector_hi :
    bytesToHex (md5 (strBytes "hi")) = "49f68a5c8493ec2c0bf489821c21fc3b" := by rfl

/-! ## Claim C2 -/

/-- C2: the claim is FALSE on the code. `HasObject` is supposed to return
true when the bucket walk meets an entry that is not a directory and whose
name does not end in ".metadata", but the source's post-processing makes the
`return true` branch unreachable: for EVERY bucket the function returns
false, and on a bucket holding the single file "x" — which satisfies the
claim's condition — it returns `(false, nil)`. -/
theorem hasObject_never_true :
    (∀ entries : List WalkEntry, (hasObject entries).fst = false) ∧
    claimHasObject [{ path := "x", isDir := false }] = true ∧
    hasObject [{ path := "x", isDir := false }] = (false, none) ∧
    hasObjectWalk [{ path := "x", isDir := false }] = some "found object" := by
  refine ⟨?_, by decide, by decide, by decide⟩
  intro entries
  rcases h : hasObjectWalk entries with _ | msg
  · simp [hasObject, h]
  · simp only [hasObject, h]
    split
    · rfl
    · rfl

/-! ## Claim C1 -/

/-- C1: the claim is FALSE on the code. On an existing bucket holding the
object "x" (data file plus sidecar), `DeleteBucket` does not answer 409
NotEmpty: `HasObject` erroneously reports false, the engine then refuses to
remove the non-empty directory on each of the three attempts, and the
handler answers 500 "Failed to delete bucket". The bucket and its contents
are left intact — that part of the claim holds. -/
theorem deleteBucket_nonEmpty_responds_500 :
    deleteBucketFlow (some [FsTree.file "x", FsTree.file "x.metadata"]) =
      (.respondError 500 "Failed to delete bucket",
        some [FsTree.file "x", FsTree.file "x.metadata"]) ∧
    claimHasObject (walkForest [FsTree.file "x", FsTree.file "x.metadata"]) = true := by
  exact ⟨rfl, by decide⟩

/-! ## Claim C4 -/

/-- C4: the claim is FALSE on the code. The source regex `[a-zA-Z0-9!-_.*'()/]`
contains the unescaped range `!-_` (bytes 0x21 through 0x5f), so keys with
':', ';', '@' or '#' — all outside the claim's safe-character class — are
accepted by `isValidObjectKey`. -/
theorem objectKey_unsafe_chars_accepted :
    (isValidObjectKey "a:b").fst = true ∧
    (isValidObjectKey "a;b").fst = true ∧
    (isValidObjectKey "a@b").fst = true ∧
    (isValidObjectKey "a#b").fst = true ∧
    claimSafeChar ':' = false ∧ claimSafeChar ';' = false ∧
    claimSafeChar '@' = false ∧ claimSafeChar '#' = false := by
  decide

/-! ## Claim C6 -/

/-- C6: for every successful `PutObject`, the returned metadata's size is the
number of body bytes and its etag is the quoted lowercase-hex MD5 of those
bytes; a zero-byte body yields size 0 and the quoted empty-message digest. -/
theorem putObject_success_metadata :
    (∀ (pre : ObjectPairState) (key : String) (body : List Nat) (now ct : String),
      (putObject pre key body now ct none).1 = Except.ok (putObjectMetadata key body now ct) ∧
      (putObjectMetadata key body now ct).size = body.length ∧
      (putObjectMetadata key body now ct).etag = "\"" ++ bytesToHex (md5 body) ++ "\"") ∧
    (putObjectMetadata "k" [] "t" "ct").size = 0 ∧
    (putObjectMetadata "k" [] "t" "ct").etag = "\"d41d8cd98f00b204e9800998ecf8427e\"" := by
  exact ⟨fun pre key body now ct => ⟨rfl, rfl, rfl⟩, rfl, by decide⟩

/-! ## Claim C10 -/

/-- C10: `DeleteObject` (like `GetObject` and `HeadObject`) passes bucket and
key to the engine with no validator call, and the engine joins
`basePath/bucket/key`; for the key "../../secret" — which the key validator
would reject — the joined path normalizes to "secret", outside the bucket
directory and the storage root, so the delete removes, and a get reads, a
file that is no bucket's object. -/
theorem objectPath_escapes_root :
    (isValidObjectKey "../../secret").fst = false ∧
    objectPath "data" "mybucket" "../../secret" = "secret" ∧
    charsStartWith (String.toList "data/") (String.toList "secret") = false ∧
    deleteObjectHandler "data" [("secret", [7])] "mybucket" "../../secret" =
      (.noContent, ([] : Disk)) ∧
    engineGetObject "data" [("secret", [7]), ("secret.metadata", [123])] "mybucket"
      "../../secret" = Except.ok [7] := by
  exact ⟨by decide, rfl, by decide, rfl, rfl⟩

/-! ## Claim C3 -/

/-- C3 counterexample: the error encoder does not emit JSON. The concrete
404 response for a missing bucket carries `Content-Type: application/xml`,
not `application/json` as the claim states. -/
theorem sendGossError_not_json :
    (sendGossError 404 "Bucket not found" "mybucket").contentType = "application/xml" ∧
    ¬ (sendGossError 404 "Bucket not found" "mybucket").contentType = "application/json" := by
  exact ⟨rfl, by decide⟩

/-- C3 amended: every error response has `Content-Type: application/xml`, the
HTTP status as its status, and an XML body — a declaration line followed by
an `<Error>` document holding the status as a decimal string, the message
and the resource, with no timestamp field. -/
theorem sendGossError_xml_shape (code : Nat) (message resource : String) :
    (sendGossError code message resource).status = code ∧
    (sendGossError code message resource).contentType = "application/xml" ∧
    ((sendGossError code message resource).body).data =
      (String.toList "<?xml version=\"1.0\" encoding=\"UTF-8\"?>\n<Error>\n  <Code>") ++
        (xmlEscape (Nat.repr code)).data ++
        (String.toList "</Code>\n  <Message>") ++ (xmlEscape message).data ++
        (String.toList "</Message>\n  <Resource>") ++ (xmlEscape resource).data ++
        (String.toList "</Resource>\n</Error>") := by
  refine ⟨rfl, rfl, ?_⟩
  simp only [sendGossError, marshalIndentGosssError, String.data_append, String.toList,
    List.append_assoc]
  rfl

/-! ## Claim C5 -/

/-- C5 counterexample: an overwrite in which only the metadata rename fails.
The pre-existing object (data byte 0x31 with its sidecar) is destroyed: the
failed `PutObject` removes the data file at the final path yet leaves the
old sidecar in place — a partial pair, neither "both absent" nor
"pre-existing pair unchanged". -/
theorem putObject_metaRename_partial_pair :
    (putObject
        { dataFile := some [49], metaFile := some (putObjectMetadata "k" [49] "t0" "text/plain") }
        "k" [50] "t1" "text/plain" (some .metaRenameFail)).2 =
      { dataFile := none, metaFile := some (putObjectMetadata "k" [49] "t0" "text/plain") } ∧
    ¬ claimPutFailureIntact
      { dataFile := some [49], metaFile := some (putObjectMetadata "k" [49] "t0" "text/plain") }
      (putObject
        { dataFile := some [49], metaFile := some (putObjectMetadata "k" [49] "t0" "text/plain") }
        "k" [50] "t1" "text/plain" (some .metaRenameFail)).2 := by
  constructor
  · rfl
  · intro h
    rcases h with ⟨h1, h2⟩ | h
    · exact Option.noConfusion h2
    · exact Option.noConfusion (congrArg ObjectPairState.dataFile h)

/-- C5 amended: a failing `PutObject` reports the failure point's error, and
every failure other than the metadata rename leaves the two final paths
exactly as they were; the metadata-rename failure (after the data rename
succeeded) instead leaves no data file while keeping whatever sidecar
existed before — so a fresh put still cleans up fully, but an overwrite
loses the prior data and orphans the prior sidecar. -/
theorem putObject_failure_behavior (pre : ObjectPairState) (key : String) (body : List Nat)
    (now contentType : String) (f : PutFailure) :
    (putObject pre key body now contentType (some f)).1 = Except.error (putErrMsg f) ∧
    (f ≠ .metaRenameFail → (putObject pre key body now contentType (some f)).2 = pre) ∧
    (f = .metaRenameFail →
      (putObject pre key body now contentType (some f)).2 =
        { dataFile := none, metaFile := pre.metaFile }) := by
  cases f <;> simp [putObject, putErrMsg]

/-- Witness for C5's amended theorem at concrete inputs: a copy failure on a
fresh put leaves both final paths absent, and a metadata-rename failure on a
fresh put does too. -/
theorem putObject_failure_behavior_witness :
    (putObject { dataFile := none, metaFile := none } "k" [] "t" "ct" (some .copyFail)).2 =
      { dataFile := none, metaFile := none } ∧
    (putObject { dataFile := none, metaFile := none } "k" [] "t" "ct" (some .metaRenameFail)).2 =
      { dataFile := none, metaFile := none } := by
  refine ⟨(putObject_failure_behavior { dataFile := none, metaFile := none } "k" [] "t" "ct"
    .copyFail).2.1 (by decide), ?_⟩
  have h := (putObject_failure_behavior { dataFile := none, metaFile := none } "k" [] "t" "ct"
    .metaRenameFail).2.2 rfl
  simpa using h

/-! ## Claim C8 -/

/-- C8 counterexample: the auth filter does not compare "everything after the
first equals sign". With access key id "id" and secret "a", the header
"id=a=x" is ACCEPTED by the code (it compares only the segment between the
first and second equals sign), while the claim's reading — secret half
"a=x" — says it must be rejected with 401. -/
theorem auth_first_split_counterexample :
    createAuthMiddleware { accessKeyID := "id", secretKey := "a" } "GET" "id=a=x" =
      AuthResult.allow ∧
    claimAuthAccepts { accessKeyID := "id", secretKey := "a" } "GET" "id=a=x" = false := by
  constructor <;> decide

/-- C8 amended: for non-OPTIONS requests the filter accepts exactly when the
header is nonempty and splitting it at EVERY equals sign yields at least two
parts whose first equals the configured access key id and whose second (the
segment between the first and second equals sign) equals the configured
secret; OPTIONS always passes. Missing or equals-free headers fail the
length test and are denied 401, as are mismatches in either compared part. -/
theorem auth_accept_characterization (cfg : Config) (method authHeader : String) :
    createAuthMiddleware cfg method authHeader = AuthResult.allow ↔
      (method = "OPTIONS" ∨
        (authHeader ≠ "" ∧
          2 ≤ ((splitEq authHeader.toList).map String.mk).length ∧
          ((splitEq authHeader.toList).map String.mk).getD 0 "" = cfg.accessKeyID ∧
          ((splitEq authHeader.toList).map String.mk).getD 1 "" = cfg.secretKey)) := by
  simp only [createAuthMiddleware]
  split
  · next hm => simp [hm]
  · next hm =>
    split
    · next hh =>
      constructor
      · intro h; exact AuthResult.noConfusion h
      · rintro (h | ⟨h2, -⟩)
        · exact absurd h hm
        · exact absurd hh h2
    · next hh =>
      split
      · next hl =>
        constructor
        · intro h; exact AuthResult.noConfusion h
        · rintro (h | ⟨-, h3, -⟩)
          · exact absurd h hm
          · omega
      · next hl =>
        split
        · next h0 =>
          constructor
          · intro h; exact AuthResult.noConfusion h
          · rintro (h | ⟨-, -, h4, -⟩)
            · exact absurd h hm
            · exact absurd h4 h0
        · next h0 =>
          split
          · next h1 =>
            constructor
            · intro h; exact AuthResult.noConfusion h
            · rintro (h | ⟨-, -, -, h5⟩)
              · exact absurd h hm
              · exact absurd h5 h1
          · next h1 =>
            constructor
            · intro _
              exact Or.inr ⟨hh, by omega, not_not.mp h0, not_not.mp h1⟩
            · intro _; rfl

/-! ## Claims C7 and C9 -/

/-- A SHA-256 digest is never the empty byte list: the final state always
serializes to 32 bytes. -/
theorem sha256_ne_nil (msg : List Nat) : sha256 msg ≠ [] := by
  simp [sha256, sha256Digest, beBytes4]

/-- Hex encoding of a nonempty byte list is a nonempty string. -/
theorem bytesToHex_ne_empty {bs : List Nat} (h : bs ≠ []) : bytesToHex bs ≠ "" := by
  cases bs with
  | nil => exact absurd rfl h
  | cons b rest =>
    intro he
    have := congrArg String.data he
    simp [bytesToHex] at this

/-- A recomputed signature is never the empty string, so a correct signature
always survives the missing-parameter check. -/
theorem generateSignature_ne_empty (s e b k : String) : generateSignature s e b k ≠ "" := by
  exact bytesToHex_ne_empty (sha256_ne_nil _)

/-- Parsing never succeeds on the empty expiration parameter. -/
theorem parseGoInt64_empty : parseGoInt64 "" = none := rfl

/-- C7: for a request whose expiration parameter parses and is not in the
past, and whose signature parameter is present, the handler proceeds to the
object fetch exactly when the received signature equals the lowercase-hex
HMAC-SHA256 (keyed by the shared secret) of `expiration:bucket:key`; any
other received signature is answered 403 "Invalid signature". (An absent —
empty — signature parameter is answered 400 before any comparison, which is
why the hypothesis `sig ≠ ""` delimits the claim's domain.) -/
theorem signedObject_signature_decides (cfg : Config) (now e : Int)
    (expiration sig bucket key : String)
    (hp : parseGoInt64 expiration = some e) (hne : ¬ now > e) (hs : sig ≠ "") :
    (getSignedObject cfg now expiration sig bucket key = .fetchObject bucket key ↔
      sig = generateSignature cfg.secretKey expiration bucket key) ∧
    (sig ≠ generateSignature cfg.secretKey expiration bucket key →
      getSignedObject cfg now expiration sig bucket key =
        .respondError 403 "Invalid signature") := by
  have hexp : expiration ≠ "" := by
    intro h
    rw [h, parseGoInt64_empty] at hp
    exact Option.noConfusion hp
  unfold getSignedObject
  rw [if_neg (by push_neg; exact ⟨hexp, hs⟩)]
  simp only [hp]
  rw [if_neg hne]
  by_cases hsig : sig = generateSignature cfg.secretKey expiration bucket key
  · rw [if_neg (not_not.mpr hsig)]
    exact ⟨by simp [hsig], fun h => absurd hsig h⟩
  · rw [if_pos hsig]
    exact ⟨by simp [hsig], fun _ => rfl⟩

/-- Witness for C7 at concrete inputs: with secret "topsecret", expiration
"10" at time 5, the recomputed signature is accepted and "deadbeef" is
answered 403. -/
theorem signedObject_signature_decides_witness :
    getSignedObject { accessKeyID := "ak", secretKey := "topsecret" } 5 "10"
      (generateSignature "topsecret" "10" "b" "k") "b" "k" = .fetchObject "b" "k" ∧
    getSignedObject { accessKeyID := "ak", secretKey := "topsecret" } 5 "10" "deadbeef" "b" "k" =
      .respondError 403 "Invalid signature" := by
  constructor
  · exact (signedObject_signature_decides { accessKeyID := "ak", secretKey := "topsecret" } 5 10
      "10" (generateSignature "topsecret" "10" "b" "k") "b" "k" (by decide) (by decide)
      (by decide)).1.mpr rfl
  · exact (signedObject_signature_decides { accessKeyID := "ak", secretKey := "topsecret" } 5 10
      "10" "deadbeef" "b" "k" (by decide) (by decide) (by decide)).2 (by decide)

/-- C9: expiration is inclusive at the current second. When the expiration
parameter parses to the current Unix time, a correctly signed request is
served; when it parses to the current time minus one, every request (with a
nonempty signature parameter) is answered 403 "URL has expired". -/
theorem signedObject_expiration_inclusive (cfg : Config) (now e : Int)
    (expiration bucket key : String) (hp : parseGoInt64 expiration = some e) :
    (e = now →
      getSignedObject cfg now expiration
        (generateSignature cfg.secretKey expiration bucket key) bucket key =
        .fetchObject bucket key) ∧
    (e = now - 1 → ∀ sig, sig ≠ "" →
      getSignedObject cfg now expiration sig bucket key =
        .respondError 403 "URL has expired") := by
  have hexp : expiration ≠ "" := by
    intro h
    rw [h, parseGoInt64_empty] at hp
    exact Option.noConfusion hp
  constructor
  · intro heq
    unfold getSignedObject
    rw [if_neg (by push_neg; exact ⟨hexp, generateSignature_ne_empty _ _ _ _⟩)]
    simp only [hp]
    rw [if_neg (show ¬ now > e by omega), if_neg (not_not.mpr rfl)]
  · intro heq sig hs
    unfold getSignedObject
    rw [if_neg (by push_neg; exact ⟨hexp, hs⟩)]
    simp only [hp]
    rw [if_pos (show now > e by omega)]

/-- Witness for C9 at concrete inputs: at time 100, expiration "100" with the
correct signature is served and expiration "99" is answered expired. -/
theorem signedObject_expiration_inclusive_witness :
    getSignedObject { accessKeyID := "ak", secretKey := "s" } 100 "100"
      (generateSignature "s" "100" "b" "k") "b" "k" = .fetchObject "b" "k" ∧
    getSignedObject { accessKeyID := "ak", secretKey := "s" } 100 "99" "x" "b" "k" =
      .respondError 403 "URL has expired" := by
  constructor
  · exact (signedObject_expiration_inclusive { accessKeyID := "ak", secretKey := "s" } 100 100
      "100" "b" "k" (by decide)).1 rfl
  · exact (signedObject_expiration_inclusive { accessKeyID := "ak", secretKey := "s" } 100 99
      "99" "b" "k" (by decide)).2 (by decide) "x" (by decide)

end Gosss
